import Mathlib

/-!
Verification development for the progress-document parsing and scoring engine of
the `claude-code-project-manager` repository.

The Python source (`src/pm/scanner/parser.py`, `src/pm/database/models.py`,
`src/pm/generator/prompts.py`) is embedded shallowly:

* Python floats are modelled as exact rationals (`ℚ`);
* Python regular-expression searches are modelled by a small backtracking
  matcher (`Rx`) with PCRE-style leftmost, priority-ordered semantics, and each
  pattern string of the source is transcribed into an `Rx` syntax tree;
* `str.upper` / `str.lower` / `str.strip` are modelled for the character
  alphabet this code actually compares (ASCII plus the handful of non-ASCII
  characters appearing literally in the source);
* the wall clock (`datetime.utcnow() - last_activity`) is modelled by passing
  the day difference as an input field.
-/

/-- Python whitespace class `\s` (ASCII part: space, tab, newline, carriage
return, form feed, vertical tab). -/
def pySpaceChars : List Char := [' ', '\t', '\n', '\r', Char.ofNat 11, Char.ofNat 12]

def isPySpace (c : Char) : Bool := pySpaceChars.contains c

/-- Models `str.lower` on the characters this code compares (ASCII letters). -/
def pyLower (c : Char) : Char := if c.isUpper then c.toLower else c

/-- Models `str.upper` on the characters this code compares: ASCII letters plus
the non-ASCII characters occurring in the status-indicator table of
`parser.py` that have an uppercase form. -/
def pyUpper (c : Char) : Char :=
  if c.isLower then c.toUpper
  else if c = Char.ofNat 0xE2 then Char.ofNat 0xC2
  else if c = Char.ofNat 0x153 then Char.ofNat 0x152
  else if c = Char.ofNat 0xF0 then Char.ofNat 0xD0
  else if c = Char.ofNat 0xEF then Char.ofNat 0xCF
  else c

def pyLowerStr (s : String) : String := String.mk (s.data.map pyLower)

def pyUpperStr (s : String) : String := String.mk (s.data.map pyUpper)

/-- Models `str.strip()` (strip whitespace from both ends). -/
def pyStrip (s : String) : String :=
  String.mk (((s.data.dropWhile isPySpace).reverse.dropWhile isPySpace).reverse)

/-- Models `str.lstrip(chars)`. -/
def pyLstrip (chars : String) (s : String) : String :=
  String.mk (s.data.dropWhile (fun c => chars.data.contains c))

def listIsPrefixOf : List Char → List Char → Bool
  | [], _ => true
  | _ :: _, [] => false
  | a :: as, b :: bs => a = b && listIsPrefixOf as bs

def listIsInfixOf (needle : List Char) : List Char → Bool
  | [] => listIsPrefixOf needle []
  | c :: t => listIsPrefixOf needle (c :: t) || listIsInfixOf needle t

/-- Models the Python substring test `needle in hay`. -/
def pyContains (hay needle : String) : Bool := listIsInfixOf needle.data hay.data

/-- Models `str.split(sep)` for a one-character separator: keeps empty
pieces, returns one more piece than there are separators. -/
def splitCharList (sep : Char) : List Char → List (List Char)
  | [] => [[]]
  | c :: t =>
    let r := splitCharList sep t
    if c = sep then [] :: r
    else
      match r with
      | [] => [[c]]
      | h :: t2 => (c :: h) :: t2

/-- `content.split(chr(10))` as strings. -/
def pySplitNl (s : String) : List String := (splitCharList (Char.ofNat 10) s.data).map String.mk

/-- Models `s.startswith(tuple_of_single_chars)`. -/
def pyStartsWithAny (cs : List Char) (s : String) : Bool :=
  match s.data with
  | [] => false
  | c :: _ => cs.contains c

/-- Models `sep.join(parts)`. -/
def pyJoin (sep : String) : List String → String
  | [] => ""
  | [x] => x
  | x :: xs => x ++ sep ++ pyJoin sep xs

/-- Digits captured by `\d+`, read as a natural number (models `int(...)`). -/
def natOfDigits (l : List Char) : Nat :=
  l.foldl (fun n c => n * 10 + (c.toNat - 48)) 0

/-- A decimal capture of shape `\d+(\.\d+)?`, read as a rational
(models `float(...)` on such a capture). -/
def ratOfDecimal (l : List Char) : ℚ :=
  let intPart := l.takeWhile (fun c => c ≠ '.')
  let fracPart := (l.dropWhile (fun c => c ≠ '.')).drop 1
  (natOfDigits intPart : ℚ) + (natOfDigits fracPart : ℚ) / (10 : ℚ) ^ fracPart.length

/-! ## A small backtracking regular-expression matcher

Supports exactly the constructs used by the patterns in `parser.py`:
literals, character classes (possibly negated), `\d`, `\s`, `.` (not newline),
concatenation, alternation (priority order), greedy and lazy star, and
numbered capture groups.  Matching is continuation-passing backtracking with
PCRE semantics; a fuel argument bounds the recursion depth (every star body in
the transcribed patterns consumes at least one character, so the fuel bound
`(input length + 1) * (pattern size + 2)` is never the deciding factor). -/

inductive Rx where
  | eps : Rx
  | lit : Char → Rx
  | cls : Bool → List Char → Rx
  | digit : Rx
  | space : Rx
  | dot : Rx
  | cat : Rx → Rx → Rx
  | alt : Rx → Rx → Rx
  | star : Bool → Rx → Rx
  | group : Nat → Rx → Rx
deriving Repr, DecidableEq

def rxSize : Rx → Nat
  | .cat a b => rxSize a + rxSize b + 1
  | .alt a b => rxSize a + rxSize b + 1
  | .star _ a => rxSize a + 1
  | .group _ a => rxSize a + 1
  | _ => 1

/-- Case comparison of a literal pattern character with an input character. -/
def litEq (icase : Bool) (p c : Char) : Bool :=
  if icase then pyLower p = pyLower c else p = c

/-- Membership of an input character in a character class. -/
def clsMem (icase : Bool) (cs : List Char) (c : Char) : Bool :=
  if icase then (cs.map pyLower).contains (pyLower c) else cs.contains c

abbrev Caps := List (Nat × List Char)

/-- The backtracking matcher.  `k` is the success continuation receiving the
remaining input and the captures recorded so far; alternatives are tried in
priority order and a failing continuation causes backtracking. -/
def rxM (icase : Bool) :
    Nat → Rx → List Char → Caps → (List Char → Caps → Option (List Char × Caps)) →
    Option (List Char × Caps)
  | 0, _, _, _, _ => none
  | _ + 1, .eps, s, caps, k => k s caps
  | _ + 1, .lit c, s, caps, k =>
    match s with
    | [] => none
    | a :: rest => if litEq icase c a then k rest caps else none
  | _ + 1, .cls neg cs, s, caps, k =>
    match s with
    | [] => none
    | a :: rest =>
      if (clsMem icase cs a) ≠ neg then k rest caps else none
  | _ + 1, .digit, s, caps, k =>
    match s with
    | [] => none
    | a :: rest => if a.isDigit then k rest caps else none
  | _ + 1, .space, s, caps, k =>
    match s with
    | [] => none
    | a :: rest => if isPySpace a then k rest caps else none
  | _ + 1, .dot, s, caps, k =>
    match s with
    | [] => none
    | a :: rest => if a = '\n' then none else k rest caps
  | fuel + 1, .cat r1 r2, s, caps, k =>
    rxM icase fuel r1 s caps (fun s1 caps1 => rxM icase fuel r2 s1 caps1 k)
  | fuel + 1, .alt r1 r2, s, caps, k =>
    match rxM icase fuel r1 s caps k with
    | some res => some res
    | none => rxM icase fuel r2 s caps k
  | fuel + 1, .star lazy r1, s, caps, k =>
    let once := fun (kk : List Char → Caps → Option (List Char × Caps)) =>
      rxM icase fuel r1 s caps (fun s1 caps1 =>
        if s1.length < s.length then kk s1 caps1 else none)
    if lazy then
      match k s caps with
      | some res => some res
      | none => once (fun s1 caps1 => rxM icase fuel (.star lazy r1) s1 caps1 k)
    else
      match once (fun s1 caps1 => rxM icase fuel (.star lazy r1) s1 caps1 k) with
      | some res => some res
      | none => k s caps
  | fuel + 1, .group i r1, s, caps, k =>
    rxM icase fuel r1 s caps (fun s1 caps1 =>
      k s1 ((i, s.take (s.length - s1.length)) :: caps1))

def rxFuel (r : Rx) (s : List Char) : Nat := (s.length + 1) * (rxSize r + 2)

/-- Attempt a match anchored at the start of `s`. -/
def rxRun (icase : Bool) (r : Rx) (s : List Char) : Option (List Char × Caps) :=
  rxM icase (rxFuel r s) r s [] (fun s1 caps => some (s1, caps))

/-- Scan for the leftmost match (models `re.search`). -/
def rxSearchAux (icase : Bool) (r : Rx) : List Char → Option (List Char × Caps)
  | [] => rxRun icase r []
  | c :: t =>
    match rxRun icase r (c :: t) with
    | some res => some res
    | none => rxSearchAux icase r t

/-- `re.search(pattern, s, flags)`: captures of the leftmost match. -/
def rxSearch (icase : Bool) (r : Rx) (s : String) : Option Caps :=
  (rxSearchAux icase r s.data).map (·.2)

/-- `re.finditer`: captures of every non-overlapping match, leftmost first;
an empty match advances by one character, as in Python. -/
def rxFindIterAux (icase : Bool) (r : Rx) : Nat → List Char → List Caps
  | 0, _ => []
  | _ + 1, [] =>
    match rxRun icase r [] with
    | some (_, caps) => [caps]
    | none => []
  | fuel + 1, c :: t =>
    match rxRun icase r (c :: t) with
    | some (s1, caps) =>
      if s1.length < (c :: t).length then caps :: rxFindIterAux icase r fuel s1
      else caps :: rxFindIterAux icase r fuel t
    | none => rxFindIterAux icase r fuel t

def rxFindIter (icase : Bool) (r : Rx) (s : String) : List Caps :=
  rxFindIterAux icase r (s.data.length + 1) s.data

/-- `re.match` of a pattern of the form `^...$` against a newline-free line:
the whole line must be consumed. -/
def rxFullMatch (icase : Bool) (r : Rx) (s : String) : Option Caps :=
  (rxM icase (rxFuel r s.data) r s.data []
    (fun s1 caps => if s1 = [] then some (s1, caps) else none)).map (·.2)

/-- `match.group(i)` as a character list (empty if the group did not
participate). -/
def capGet (caps : Caps) (i : Nat) : List Char :=
  ((caps.find? (fun p => p.1 = i)).map (·.2)).getD []

def capStr (caps : Caps) (i : Nat) : String := String.mk (capGet caps i)

def capNat (caps : Caps) (i : Nat) : Nat := natOfDigits (capGet caps i)

/-! Smart constructors used to transcribe the pattern strings. -/

def rxSeq (l : List Rx) : Rx := l.foldr .cat .eps

def rxStr (s : String) : Rx := rxSeq (s.data.map .lit)

def rxAlts (l : List Rx) : Rx :=
  match l with
  | [] => .eps
  | [r] => r
  | r :: rs => .alt r (rxAlts rs)

def rxPlus (r : Rx) : Rx := .cat r (.star false r)

def rxOpt (r : Rx) : Rx := .alt r .eps

/-! ## Data model (`src/pm/scanner/parser.py`) -/

inductive ItemStatus where
  | pending
  | in_progress
  | complete
  | blocked
deriving Repr, DecidableEq

inductive ItemPriority where
  | critical
  | high
  | medium
  | low
deriving Repr, DecidableEq

/-- A single task/item from a progress document. -/
structure ProgressItem where
  content : String
  status : ItemStatus
  priority : Option ItemPriority := none
  source_file : Option String := none
  line_number : Option Nat := none
  item_type : String := "task"
deriving Repr, DecidableEq

/-- A pending decision from the progress document. -/
structure DecisionPoint where
  question : String
  options : List String := []
  recommendation : Option String := none
  source_file : Option String := none
deriving Repr, DecidableEq

/-- Parsed progress state for a project.  `sections` models the Python dict as
an insertion-ordered association list. -/
structure ProjectProgress where
  completion_pct : Option ℚ := none
  total_items : Nat := 0
  completed_items : Nat := 0
  current_phase : Option String := none
  current_status : Option String := none
  current_focus : Option String := none
  last_updated : Option String := none
  next_action : Option String := none
  next_steps : List String := []
  items : List ProgressItem := []
  decisions : List DecisionPoint := []
  has_pending_decision : Bool := false
  sections : List (String × String) := []
deriving Repr, DecidableEq

/-- Python truthiness of an `Optional[str]` (`None` and `""` are falsy). -/
def pyTruthy : Option String → Bool
  | some s => s ≠ ""
  | none => false

/-- Builds one of the byte-for-byte non-ASCII indicator strings that appear
literally in `parser.py`. -/
def mojiStr (l : List Nat) : String := String.mk (l.map Char.ofNat)

namespace ProgressParser

/-! ### Pattern tables, transcribed from `parser.py` -/

/-- The class `[:\s]`. -/
def colonSpace : Rx := .cls false (':' :: pySpaceChars)

/-- The class `[^\n]`. -/
def nonNl : Rx := .cls true ['\n']

def keywordAlt : Rx := rxAlts [rxStr "complete", rxStr "done", rxStr "finished"]

/-- `(\d+)\s*(?:of|/)\s*(\d+).*(?:complete|done|finished)` -/
def completion_pat1 : Rx :=
  rxSeq [.group 1 (rxPlus .digit), .star false .space, .alt (rxStr "of") (.lit '/'),
    .star false .space, .group 2 (rxPlus .digit), .star false .dot, keywordAlt]

/-- `(?:complete|done|finished).*?(\d+)\s*(?:of|/)\s*(\d+)` -/
def completion_pat2 : Rx :=
  rxSeq [keywordAlt, .star true .dot, .group 1 (rxPlus .digit), .star false .space,
    .alt (rxStr "of") (.lit '/'), .star false .space, .group 2 (rxPlus .digit)]

/-- `(\d+(?:\.\d+)?)\s*%` -/
def completion_pat3 : Rx :=
  rxSeq [.group 1 (rxSeq [rxPlus .digit, rxOpt (rxSeq [.lit '.', rxPlus .digit])]),
    .star false .space, .lit '%']

def PHASE_PATTERNS : List Rx :=
  [rxSeq [rxOpt (rxSeq [rxStr "current", rxPlus .space]), rxStr "phase",
      rxPlus colonSpace, .group 1 (rxPlus nonNl)],
   rxSeq [rxStr "##", .star false .space, rxOpt (rxSeq [rxStr "phase", rxPlus .space]),
      .group 1 (rxSeq [rxPlus .digit, rxOpt (rxSeq [.lit '.', rxPlus .digit]),
        rxPlus colonSpace, rxPlus nonNl])],
   rxSeq [rxStr "**", rxOpt (rxSeq [rxStr "current", rxPlus .space]), rxStr "phase",
      rxStr "**", rxPlus colonSpace, .group 1 (rxPlus nonNl)]]

def STATUS_PATTERNS : List Rx :=
  [rxSeq [rxStr "**status**", rxPlus colonSpace, .group 1 (rxPlus nonNl)],
   rxSeq [rxStr "status", rxPlus colonSpace, .group 1 (rxPlus nonNl)]]

def FOCUS_PATTERNS : List Rx :=
  [rxSeq [rxStr "**current", rxPlus .space, rxStr "focus**", rxPlus colonSpace,
      .group 1 (rxPlus nonNl)],
   rxSeq [rxStr "current", rxPlus .space, rxStr "focus", rxPlus colonSpace,
      .group 1 (rxPlus nonNl)]]

def NEXT_STEP_PATTERNS : List Rx :=
  [rxSeq [rxAlts [rxSeq [rxStr "next", rxPlus .space, rxStr "step"],
      rxSeq [rxStr "immediate", rxPlus .space, rxStr "next"]],
      rxPlus colonSpace, .group 1 (rxPlus nonNl)],
   rxSeq [rxStr "**next", rxPlus .space, rxStr "step**", rxPlus colonSpace,
      .group 1 (rxPlus nonNl)]]

def UPDATED_PATTERNS : List Rx :=
  [rxSeq [rxStr "**last", rxPlus .space, rxStr "updated**", rxPlus colonSpace,
      .group 1 (rxPlus nonNl)],
   rxSeq [rxStr "last", rxPlus .space, rxStr "updated", rxPlus colonSpace,
      .group 1 (rxPlus nonNl)]]

/-- The literal characters of the class in
`^[\s-]*\[([ xX..])\]\s+(.+)$` (the last six are the two non-ASCII
check marks as they appear byte-for-byte in the source file). -/
def checkboxMarks : List Char :=
  [' ', 'x', 'X', Char.ofNat 0xE2, Char.ofNat 0x153, Char.ofNat 0x201C,
   Char.ofNat 0xE2, Char.ofNat 0x153, Char.ofNat 0x2026]

/-- `^[\s-]*\[([ xX..])\]\s+(.+)$`, matched with `re.match` against one line
(so the `^`/`$` anchors make it a full-line match). -/
def checkbox_pat : Rx :=
  rxSeq [.star false (.cls false (pySpaceChars ++ ['-'])), .lit '[',
    .group 1 (.cls false checkboxMarks), .lit ']', rxPlus .space,
    .group 2 (rxPlus .dot)]

/-- `###?\s*Option\s+([A-Z])[:\s]+([^\n]+)` -/
def option_pat : Rx :=
  rxSeq [rxStr "##", rxOpt (.lit '#'), .star false .space, rxStr "Option",
    rxPlus .space, .group 1 (.cls false "ABCDEFGHIJKLMNOPQRSTUVWXYZ".data),
    rxPlus colonSpace, .group 2 (rxPlus nonNl)]

/-- `(?:recommend|recommended|current recommendation)[:\s]+([^\n]+)` -/
def rec_pat : Rx :=
  rxSeq [rxAlts [rxStr "recommend", rxStr "recommended", rxStr "current recommendation"],
    rxPlus colonSpace, .group 1 (rxPlus nonNl)]

/-- The question pattern (with the apostrophe written via its code point). -/
def question_pat : Rx :=
  rxSeq [rxAlts [rxSeq [rxStr "decision", rxPlus .space, rxStr "point"],
      rxSeq [rxStr "what", .lit (Char.ofNat 39), rxStr "s", rxPlus .space, rxStr "next"]],
    rxPlus colonSpace, .group 1 (rxPlus nonNl)]

/-- `###?\s*(?:Immediate\s+)?Next\s+Steps?\s*\n((?:[-*]\s+[^\n]+\n?)+)` -/
def next_steps_sec_pat : Rx :=
  rxSeq [rxStr "##", rxOpt (.lit '#'), .star false .space,
    rxOpt (rxSeq [rxStr "Immediate", rxPlus .space]), rxStr "Next", rxPlus .space,
    rxStr "Step", rxOpt (.lit 's'), .star false .space, .lit '\n',
    .group 1 (rxPlus (rxSeq [.cls false ['-', '*'], rxPlus .space, rxPlus nonNl,
      rxOpt (.lit '\n')]))]

/-- The `STATUS_INDICATORS` table, keys byte-for-byte as in the source file,
in source order (iteration order of the Python dict). -/
def STATUS_INDICATORS : List (String × ItemStatus) :=
  [(mojiStr [0xE2, 0x153, 0x2026], .complete),
   (mojiStr [0xE2, 0x153, 0x201C], .complete),
   (mojiStr [0xE2, 0x2DC, 0x2018], .complete),
   ("COMPLETE", .complete),
   (mojiStr [0xE2, 0xB3], .in_progress),
   (mojiStr [0xF0, 0x178, 0x201D, 0x201E], .in_progress),
   ("IN PROGRESS", .in_progress),
   ("IN_PROGRESS", .in_progress),
   (mojiStr [0xE2, 0xAC, 0x153], .pending),
   (mojiStr [0xE2, 0xB8, 0xEF, 0xB8], .pending),
   ("NOT STARTED", .pending),
   ("PENDING", .pending),
   (mojiStr [0xF0, 0x178, 0x201D, 0xB4], .blocked),
   (mojiStr [0xE2, 0x152], .blocked),
   ("BLOCKED", .blocked)]

def PRIORITY_INDICATORS : List (String × ItemPriority) :=
  [("CRITICAL", .critical),
   ("HIGH", .high),
   ("MEDIUM", .medium),
   ("LOW", .low),
   ("IMMEDIATE", .critical)]

end ProgressParser

namespace ProgressParser

/-! ### `_extract_completion` (parser.py lines 211-232)

The Python loop tries each pattern over the whole document in table order.
For the two `N of M` patterns a match only returns when the parsed total is
positive, otherwise the loop falls through to the next pattern; the bare
percentage pattern always returns its parsed value.  `tryNofM` returns `none`
both when the pattern has no match and when the matched total is zero, which
is exactly the fall-through behaviour of the loop. -/

def tryNofM (r : Rx) (content : String) : Option ℚ :=
  match rxSearch true r content with
  | some caps =>
    let done := capNat caps 1
    let total := capNat caps 2
    if total > 0 then some ((done : ℚ) / (total : ℚ) * 100) else none
  | none => none

/-- The bare `P%` pattern: `float(match.group(1))`. -/
def tryPct (content : String) : Option ℚ :=
  (rxSearch true completion_pat3 content).map (fun caps => ratOfDecimal (capGet caps 1))

/-- Extract completion percentage from content. -/
def extract_completion (content : String) : Option ℚ :=
  match tryNofM completion_pat1 content with
  | some v => some v
  | none =>
    match tryNofM completion_pat2 content with
    | some v => some v
    | none => tryPct content

/-- `_extract_pattern`: first match from a list of patterns, group 1 stripped.
(The Python call passes `re.IGNORECASE | re.MULTILINE`; none of the patterns
in these tables contains an anchor, so the multiline flag is inert.) -/
def extract_pattern (content : String) : List Rx → Option String
  | [] => none
  | p :: ps =>
    match rxSearch true p content with
    | some caps => some (pyStrip (capStr caps 1))
    | none => extract_pattern content ps

/-- First status indicator whose key occurs in `text.upper()`. -/
def statusIndicatorIn (text : String) : Option ItemStatus :=
  (STATUS_INDICATORS.find? (fun p => pyContains (pyUpperStr text) p.1)).map (·.2)

/-- First priority indicator whose key occurs in `text.upper()`. -/
def priorityIndicatorIn (text : String) : Option ItemPriority :=
  (PRIORITY_INDICATORS.find? (fun p => pyContains (pyUpperStr text) p.1)).map (·.2)

/-- `_extract_checkboxes` (parser.py lines 242-278): scan every line, 1-based
line numbers, checkbox marks other than a space count as checked, indicator
vocabulary in the text overrides the checkbox-derived status. -/
def extract_checkboxes (content : String) (source_file : Option String) :
    List ProgressItem :=
  ((pySplitNl content).enum).filterMap (fun le =>
    match rxFullMatch false checkbox_pat le.2 with
    | some caps =>
      let mark := capStr caps 1
      let checked := ¬ (pyLowerStr mark = " " ∨ pyLowerStr mark = "")
      let text := pyStrip (capStr caps 2)
      let base : ItemStatus := if checked then .complete else .pending
      let status := (statusIndicatorIn text).getD base
      let priority := priorityIndicatorIn text
      some { content := text, status := status, priority := priority,
             source_file := source_file, line_number := some (le.1 + 1) }
    | none => none)

/-- Formats one `Option` heading match as the source does. -/
def fmtOption (caps : Caps) : String :=
  "Option " ++ capStr caps 1 ++ ": " ++ pyStrip (capStr caps 2)

/-- `_extract_decisions` (parser.py lines 280-309). -/
def extract_decisions (content : String) (source_file : Option String) :
    List DecisionPoint :=
  let ms := rxFindIter true option_pat content
  if 2 ≤ ms.length then
    let options := ms.map fmtOption
    let recommendation :=
      (rxSearch true rec_pat content).map (fun caps => pyStrip (capStr caps 1))
    let question :=
      match rxSearch true question_pat content with
      | some caps => pyStrip (capStr caps 1)
      | none => "Choose an approach"
    [{ question := question, options := options,
       recommendation := recommendation, source_file := source_file }]
  else []

/-- `_extract_next_steps` (parser.py lines 311-326). -/
def extract_next_steps (content : String) : List String :=
  match rxSearch true next_steps_sec_pat content with
  | some caps =>
    let steps := ((pySplitNl (capStr caps 1)).map pyStrip).filterMap (fun line =>
      if pyStartsWithAny ['-', '*'] line then
        some (pyStrip (pyLstrip "-* " line))
      else none)
    steps.take 5
  | none => []

/-! ### `_extract_sections` (parser.py lines 328-345) -/

/-- Insert into an insertion-ordered dict: an existing key keeps its position
and gets the new value, a new key is appended. -/
def dictInsert (d : List (String × String)) (k v : String) : List (String × String) :=
  if d.any (fun p => p.1 = k) then d.map (fun p => if p.1 = k then (k, v) else p)
  else d ++ [(k, v)]

/-- `re.split` over `^##\s+` with the multiline flag: cut the text at every
line position where `##` is followed by at least one whitespace character
(the greedy `\s+` swallowing the following whitespace run). -/
def secSplitAux : Nat → Bool → List Char → List Char → List (List Char)
  | 0, _, cur, s => [cur.reverse ++ s]
  | fuel + 1, lineStart, cur, s =>
    match s with
    | [] => [cur.reverse]
    | c :: rest =>
      if lineStart then
        match c :: rest with
        | '#' :: '#' :: s2 =>
          let sp := s2.takeWhile isPySpace
          if sp.isEmpty then secSplitAux fuel false (c :: cur) rest
          else
            cur.reverse ::
              secSplitAux fuel (decide (sp.getLast? = some '\n')) []
                (s2.dropWhile isPySpace)
        | _ => secSplitAux fuel (decide (c = '\n')) (c :: cur) rest
      else secSplitAux fuel (decide (c = '\n')) (c :: cur) rest

def secSplit (content : String) : List (List Char) :=
  secSplitAux (content.data.length + 1) true [] content.data

/-- ASCII approximation of the `\w` class used by `re.sub(r'[^\w\s]', ...)`. -/
def pyIsWordChar (c : Char) : Bool := c.isAlphanum || c = '_'

/-- `re.sub(r'[^\w\s]', '', title).strip().lower().replace(' ', '_')` -/
def titleClean (title : String) : String :=
  String.mk ((pyLowerStr (pyStrip
    (String.mk (title.data.filter (fun c => pyIsWordChar c || isPySpace c))))).data.map
      (fun c => if c = ' ' then '_' else c))

def extract_sections (content : String) : List (String × String) :=
  ((secSplit content).drop 1).foldl (fun sections part =>
    match (splitCharList (Char.ofNat 10) part).map String.mk with
    | [] => sections
    | title :: rest =>
      let title := pyStrip title
      let body := pyStrip (pyJoin "\n" rest)
      let tc := titleClean title
      if tc ≠ "" then dictInsert sections tc (String.mk (body.data.take 500))
      else sections) []

/-- `parse_content` (parser.py lines 147-192). -/
def parse_content (content : String) (source_file : Option String := none) :
    ProjectProgress :=
  let completion := extract_completion content
  let items := extract_checkboxes content source_file
  let fallback : Option ℚ × Nat × Nat :=
    match completion with
    | some v => (some v, 0, 0)
    | none =>
      if items ≠ [] then
        let completed := (items.filter (fun i => i.status = .complete)).length
        let total := items.length
        if total > 0 then
          (some ((completed : ℚ) / (total : ℚ) * 100), total, completed)
        else (none, 0, 0)
      else (none, 0, 0)
  let decisions := extract_decisions content source_file
  { completion_pct := fallback.1,
    total_items := fallback.2.1,
    completed_items := fallback.2.2,
    current_phase := extract_pattern content PHASE_PATTERNS,
    current_status := extract_pattern content STATUS_PATTERNS,
    current_focus := extract_pattern content FOCUS_PATTERNS,
    next_action := extract_pattern content NEXT_STEP_PATTERNS,
    last_updated := extract_pattern content UPDATED_PATTERNS,
    items := items,
    decisions := decisions,
    has_pending_decision := decide (decisions ≠ []),
    next_steps := extract_next_steps content,
    sections := extract_sections content }

/-- `_merge_progress` (parser.py lines 347-385), written as a pure
`combine(base, new)` step. -/
def merge_progress (base new : ProjectProgress) : ProjectProgress :=
  let base :=
    match new.completion_pct with
    | some nc =>
      match base.completion_pct with
      | none =>
        { base with completion_pct := some nc, total_items := new.total_items,
                    completed_items := new.completed_items }
      | some bc =>
        if nc > bc then
          { base with completion_pct := some nc, total_items := new.total_items,
                      completed_items := new.completed_items }
        else base
    | none => base
  { base with
    current_phase := if pyTruthy new.current_phase then new.current_phase
                     else base.current_phase,
    current_status := if pyTruthy new.current_status then new.current_status
                      else base.current_status,
    current_focus := if pyTruthy new.current_focus then new.current_focus
                     else base.current_focus,
    next_action := if pyTruthy new.next_action then new.next_action
                   else base.next_action,
    last_updated := if pyTruthy new.last_updated then new.last_updated
                    else base.last_updated,
    items := base.items ++ new.items,
    decisions := base.decisions ++ new.decisions,
    has_pending_decision := decide (base.decisions ++ new.decisions ≠ []),
    next_steps := new.next_steps.foldl
      (fun acc step => if step ∈ acc then acc else acc ++ [step]) base.next_steps,
    sections := new.sections.foldl (fun d p => dictInsert d p.1 p.2) base.sections }

/-- `parse_project` merging, as a fold over the per-file parses in the fixed
file-name order. -/
def merge_all (init : ProjectProgress) (l : List ProjectProgress) : ProjectProgress :=
  l.foldl merge_progress init

end ProgressParser

/-! ## `src/pm/database/models.py`: the `Project` attributes consumed by
`health_score`, and the scorer itself.  `days_since_activity` models
`(datetime.utcnow() - self.last_activity).days` (`none` when `last_activity`
is `NULL`); `completion_pct * 0.3` is modelled exactly as `q * 3 / 10`, and
Python `int()` truncation toward zero as `pyInt`. -/

structure Project where
  completion_pct : Option ℚ := none
  has_claude_md : Bool := false
  has_todo : Bool := false
  has_progress : Bool := false
  days_since_activity : Option ℤ := none
  has_pending_decision : Bool := false
  git_dirty : Bool := false
  project_type : Option String := none
deriving Repr, DecidableEq

/-- Python `int()` applied to a real value: truncation toward zero. -/
def pyInt (q : ℚ) : ℤ := if 0 ≤ q then ⌊q⌋ else ⌈q⌉

/-- `Project.health_score` (models.py lines 50-102). -/
def Project.health_score (p : Project) : ℤ :=
  let score : ℤ := 0
  let score := score + (match p.completion_pct with
    | some q => pyInt (q * (3 / 10))
    | none => 0)
  let score := score + (if p.has_claude_md then 10 else 0)
  let score := score + (if p.has_todo || p.has_progress then 10 else 0)
  let score := score + (match p.days_since_activity with
    | some d =>
      if d ≤ 7 then 20 else if d ≤ 14 then 15 else if d ≤ 30 then 10
      else if d ≤ 60 then 5 else 0
    | none => 0)
  let score := score + (if ¬ p.has_pending_decision then 10 else 0)
  let score := score + (if ¬ p.git_dirty then 10 else 0)
  let score := score + (match p.project_type with
    | some t => if t ≠ "" ∧ t ≠ "generic" then 10 else 0
    | none => 0)
  min score 100

/-- Modelled from the spec: `urgency_score` is used by `src/pm/cli.py`
(sorting, line 881) and `src/dashboard/app.py` as a `Project` attribute, but
its definition is not present in the source tree.  Section 4.4 of the
specification leaves the exact weights to the implementer and requires only
the ordering: overdue projects above projects due soon, projects with an
upcoming deadline above projects with no deadline, and among no-deadline
projects a lower numeric priority value (1=critical, 5=someday) above a
higher one.  `days_until_deadline` is negative for overdue deadlines and
`none` when no deadline is set. -/
def urgency_score (days_until_deadline : Option ℤ) (priority : ℕ) : ℤ :=
  match days_until_deadline with
  | some d => if d < 0 then 2000 - d else 1000 - min d 900
  | none => 10 - (priority : ℤ)

/-! ## `src/pm/generator/prompts.py` -/

inductive PromptMode where
  | simple
  | context
  | decision
deriving Repr, DecidableEq

/-- Generated continue prompt for a project. -/
structure ContinuePrompt where
  mode : PromptMode
  command : String
  prompt_text : Option String := none
  has_decision : Bool := false
  decision : Option DecisionPoint := none
deriving Repr, DecidableEq

namespace ContinuePromptGenerator

open ProgressParser

/-- `f"{x:.0f}"`: round to an integer, ties to even (IEEE default used by
Python float formatting). -/
def halfEvenRound (q : ℚ) : ℤ :=
  let f := ⌊q⌋
  let r := q - (f : ℚ)
  if r < 1 / 2 then f
  else if 1 / 2 < r then f + 1
  else if f % 2 = 0 then f else f + 1

def fmtPct (q : ℚ) : String := toString (halfEvenRound q)

/-- `_generate_simple` (prompts.py lines 52-57). -/
def generate_simple (project_path : String) : ContinuePrompt :=
  { mode := .simple, command := "cd " ++ project_path ++ " && claude --resume" }

/-- First-seen-order deduplication of the truthy source-file names of the
items: the ELEMENTS of the Python set
`set(i.source_file for i in progress.items if i.source_file)`. -/
def sourceFileSet (items : List ProgressItem) : List String :=
  (items.filterMap (fun i =>
    match i.source_file with
    | some f => if f ≠ "" then some f else none
    | none => none)).foldl
      (fun acc f => if f ∈ acc then acc else acc ++ [f]) []

/-- `_generate_context` (prompts.py lines 59-117).  CPython iterates the set
of source-file names in an order determined by the string hashes, which are
randomized per process; `setOrder` is that environment-supplied enumeration
order (any permutation of the set elements). -/
def generate_context (setOrder : List String → List String)
    (project_path project_name : String) (progress : ProjectProgress) :
    ContinuePrompt :=
  let parts := ["Continuing work on " ++ project_name ++ "."]
  let parts := parts ++
    (if pyTruthy progress.current_phase then
      ["Current phase: " ++ progress.current_phase.getD ""] else [])
  let parts := parts ++
    (match progress.completion_pct with
     | some q => ["Progress: " ++ fmtPct q ++ "% complete"]
     | none => [])
  let parts := parts ++
    (if pyTruthy progress.current_focus then
      ["Focus: " ++ progress.current_focus.getD ""] else [])
  let parts := parts ++
    (if pyTruthy progress.next_action then
      ["\nNext action: " ++ progress.next_action.getD ""]
     else if progress.next_steps ≠ [] then
      ["\nNext steps:"] ++ (progress.next_steps.take 3).map (fun s => "  - " ++ s)
     else [])
  let in_progress_items := progress.items.filter (fun i => i.status = .in_progress)
  let parts := parts ++
    (if in_progress_items ≠ [] then
      ["\nIn progress:"] ++ (in_progress_items.take 3).map (fun i => "  - " ++ i.content)
     else [])
  let ref_files := setOrder (sourceFileSet progress.items)
  let parts := parts ++
    (if ref_files ≠ [] then ["\nRelevant files: " ++ pyJoin ", " ref_files] else [])
  { mode := .context,
    command := "cd " ++ project_path ++ " && claude --resume",
    prompt_text := some (pyJoin "\n" parts) }

/-- `_generate_decision_prompt` (prompts.py lines 119-148), with the first
decision (`progress.decisions[0]`) passed explicitly. -/
def generate_decision_prompt (project_path project_name : String)
    (_progress : ProjectProgress) (decision : DecisionPoint) : ContinuePrompt :=
  let parts := ["Continuing work on " ++ project_name ++ "."]
  let parts := parts ++ ["\n⚠️ DECISION REQUIRED: " ++ decision.question]
  let parts := parts ++ ["\nOptions:"]
  let parts := parts ++ decision.options.map (fun opt => "  - " ++ opt)
  let parts := parts ++
    (if pyTruthy decision.recommendation then
      ["\n📌 Recommendation: " ++ decision.recommendation.getD ""] else [])
  let parts := parts ++
    ["\nPlease confirm which option to proceed with, or provide your preference."]
  { mode := .decision,
    command := "cd " ++ project_path ++ " && claude --resume",
    prompt_text := some (pyJoin "\n" parts),
    has_decision := true,
    decision := some decision }

/-- `ContinuePromptGenerator.generate` (prompts.py lines 33-50).  The decision
branch is taken when `progress.has_pending_decision and progress.decisions`
holds, i.e. the flag is set AND the decisions list is non-empty; the
subscript `decisions[0]` is the head made explicit by the pattern match. -/
def generate (setOrder : List String → List String)
    (project_path project_name : String) (progress : ProjectProgress)
    (mode : PromptMode) : ContinuePrompt :=
  match progress.has_pending_decision, progress.decisions with
  | true, d :: _ => generate_decision_prompt project_path project_name progress d
  | _, _ =>
    if mode = PromptMode.simple then generate_simple project_path
    else generate_context setOrder project_path project_name progress

end ContinuePromptGenerator

/-! ## Helper definitions for the statements -/

/-- Maximum of two optional rationals, `none` acting as bottom. -/
def optMaxQ : Option ℚ → Option ℚ → Option ℚ
  | none, b => b
  | some x, none => some x
  | some x, some y => some (max x y)

/-! ## Helper lemmas -/

theorem str_append_assoc (a b c : String) : a ++ b ++ c = a ++ (b ++ c) := by
  cases a with
  | mk la =>
    cases b with
    | mk lb =>
      cases c with
      | mk lc =>
        show String.mk (la ++ lb ++ lc) = String.mk (la ++ (lb ++ lc))
        rw [List.append_assoc]

theorem str_empty_append (a : String) : "" ++ a = a := by
  cases a with
  | mk la => show String.mk ([] ++ la) = String.mk la; rw [List.nil_append]

theorem str_append_empty (a : String) : a ++ "" = a := by
  cases a with
  | mk la => show String.mk (la ++ []) = String.mk la; rw [List.append_nil]

/-- Every part of a join occurs contiguously in the joined string. -/
theorem pyJoin_mem_decomp (sep : String) :
    ∀ (l : List String) (p : String), p ∈ l →
      ∃ a b, pyJoin sep l = a ++ (p ++ b) := by
  intro l
  induction l with
  | nil => intro p hp; cases hp
  | cons x xs ih =>
    intro p hp
    cases xs with
    | nil =>
      rcases List.mem_cons.mp hp with h | h
      · subst h
        exact ⟨"", "", by rw [pyJoin, str_append_empty, str_empty_append]⟩
      · cases h
    | cons y ys =>
      rcases List.mem_cons.mp hp with h | h
      · subst h
        refine ⟨"", sep ++ pyJoin sep (y :: ys), ?_⟩
        rw [str_empty_append, ← str_append_assoc]
        rfl
      · obtain ⟨a, b, hab⟩ := ih p h
        refine ⟨x ++ sep ++ a, b, ?_⟩
        show x ++ sep ++ pyJoin sep (y :: ys) = _
        rw [hab, str_append_assoc (x ++ sep) a (p ++ b)]

theorem merge_progress_completion (base new : ProjectProgress) :
    (ProgressParser.merge_progress base new).completion_pct =
      optMaxQ base.completion_pct new.completion_pct := by
  cases hn : new.completion_pct with
  | none =>
    cases hb : base.completion_pct with
    | none => simp [ProgressParser.merge_progress, optMaxQ, hn, hb]
    | some bc => simp [ProgressParser.merge_progress, optMaxQ, hn, hb]
  | some nc =>
    cases hb : base.completion_pct with
    | none => simp [ProgressParser.merge_progress, optMaxQ, hn, hb]
    | some bc =>
      by_cases hlt : nc > bc
      · simp [ProgressParser.merge_progress, optMaxQ, hn, hb, hlt,
          max_eq_right (le_of_lt hlt)]
      · simp [ProgressParser.merge_progress, optMaxQ, hn, hb, hlt,
          max_eq_left (not_lt.mp hlt)]

theorem tryNofM_nonneg (r : Rx) (content : String) (v : ℚ)
    (h : ProgressParser.tryNofM r content = some v) : 0 ≤ v := by
  cases hs : rxSearch true r content with
  | none => simp only [ProgressParser.tryNofM, hs] at h; cases h
  | some caps =>
    simp only [ProgressParser.tryNofM, hs] at h
    by_cases hm : capNat caps 2 > 0
    · rw [if_pos hm] at h
      injection h with h
      subst h
      positivity
    · rw [if_neg hm] at h; cases h

theorem ratOfDecimal_nonneg (l : List Char) : 0 ≤ ratOfDecimal l := by
  unfold ratOfDecimal
  positivity

theorem tryPct_nonneg (content : String) (v : ℚ)
    (h : ProgressParser.tryPct content = some v) : 0 ≤ v := by
  cases hs : rxSearch true ProgressParser.completion_pat3 content with
  | none => simp only [ProgressParser.tryPct, hs, Option.map_none] at h; cases h
  | some caps =>
    simp only [ProgressParser.tryPct, hs, Option.map_some] at h
    injection h with h
    subst h
    exact ratOfDecimal_nonneg _

theorem extract_completion_nonneg (content : String) (v : ℚ)
    (h : ProgressParser.extract_completion content = some v) : 0 ≤ v := by
  cases h1 : ProgressParser.tryNofM ProgressParser.completion_pat1 content with
  | some w =>
    simp only [ProgressParser.extract_completion, h1] at h
    injection h with h
    subst h
    exact tryNofM_nonneg _ _ _ h1
  | none =>
    cases h2 : ProgressParser.tryNofM ProgressParser.completion_pat2 content with
    | some w =>
      simp only [ProgressParser.extract_completion, h1, h2] at h
      injection h with h
      subst h
      exact tryNofM_nonneg _ _ _ h2
    | none =>
      simp only [ProgressParser.extract_completion, h1, h2] at h
      exact tryPct_nonneg _ _ h

/-- Shared helper: the checklist fallback of `parse_content`, with the exact
ratio and the two count fields. -/
theorem parse_content_fallback (content : String) (sf : Option String)
    (h1 : ProgressParser.extract_completion content = none)
    (h2 : ProgressParser.extract_checkboxes content sf ≠ []) :
    (ProgressParser.parse_content content sf).completion_pct =
      some ((((ProgressParser.extract_checkboxes content sf).filter
          (fun i => i.status = .complete)).length : ℚ) /
        ((ProgressParser.extract_checkboxes content sf).length : ℚ) * 100) ∧
    (ProgressParser.parse_content content sf).total_items =
      (ProgressParser.extract_checkboxes content sf).length ∧
    (ProgressParser.parse_content content sf).completed_items =
      ((ProgressParser.extract_checkboxes content sf).filter
        (fun i => i.status = .complete)).length := by
  have hlen : (ProgressParser.extract_checkboxes content sf).length > 0 :=
    List.length_pos.mpr h2
  simp only [ProgressParser.parse_content, h1, if_pos h2, if_pos hlen]
  refine ⟨?_, ?_, ?_⟩ <;> trivial

/-! ## Claims -/

/-- C1: for every document with at least one recognized checkbox item and no
explicit completion-percentage pattern matching anywhere, `parse_content`
reports `completion_pct = C/K*100` exactly, `total_items = K` and
`completed_items = C`, where `K` is the number of recognized checkbox items
and `C` the number of them whose resulting status is complete. -/
theorem checklist_fallback_exact (content : String) (sf : Option String)
    (h1 : ProgressParser.extract_completion content = none)
    (h2 : ProgressParser.extract_checkboxes content sf ≠ []) :
    (ProgressParser.parse_content content sf).completion_pct =
      some ((((ProgressParser.extract_checkboxes content sf).filter
          (fun i => i.status = .complete)).length : ℚ) /
        ((ProgressParser.extract_checkboxes content sf).length : ℚ) * 100) ∧
    (ProgressParser.parse_content content sf).total_items =
      (ProgressParser.extract_checkboxes content sf).length ∧
    (ProgressParser.parse_content content sf).completed_items =
      ((ProgressParser.extract_checkboxes content sf).filter
        (fun i => i.status = .complete)).length :=
  parse_content_fallback content sf h1 h2

/-- Witness for C1: the scenario document from the specification. -/
theorem checklist_fallback_exact_witness :
    ProgressParser.extract_completion "- [x] A\n- [x] B\n- [ ] C\n- [x] D\n" = none ∧
    (ProgressParser.parse_content "- [x] A\n- [x] B\n- [ ] C\n- [x] D\n"
      none).completion_pct = some 75 ∧
    (ProgressParser.parse_content "- [x] A\n- [x] B\n- [ ] C\n- [x] D\n"
      none).total_items = 4 ∧
    (ProgressParser.parse_content "- [x] A\n- [x] B\n- [ ] C\n- [x] D\n"
      none).completed_items = 3 := by
  have h1 : ProgressParser.extract_completion
      "- [x] A\n- [x] B\n- [ ] C\n- [x] D\n" = none := by decide
  have h2 : ProgressParser.extract_checkboxes
      "- [x] A\n- [x] B\n- [ ] C\n- [x] D\n" none ≠ [] := by decide
  obtain ⟨hc, ht, hcc⟩ := checklist_fallback_exact _ none h1 h2
  have e1 : ((ProgressParser.extract_checkboxes
      "- [x] A\n- [x] B\n- [ ] C\n- [x] D\n" none).filter
        (fun i => i.status = .complete)).length = 3 := by decide
  have e2 : (ProgressParser.extract_checkboxes
      "- [x] A\n- [x] B\n- [ ] C\n- [x] D\n" none).length = 4 := by decide
  rw [e1, e2] at hc
  rw [e1] at hcc
  rw [e2] at ht
  refine ⟨h1, ?_, ht, hcc⟩
  rw [hc]
  norm_num

/-- C2: completion extraction tries the whole-document `N of M` pattern family
before the bare percentage pattern.  If the first `N of M` pattern matches
with a positive total, its ratio is the result; failing that, the second
`N of M` pattern is tried the same way; only when both yield nothing does the
bare `P%` pattern decide the result — irrespective of the positions of the
matches in the document. -/
theorem completion_pattern_precedence (content : String) :
    (∀ caps, rxSearch true ProgressParser.completion_pat1 content = some caps →
      0 < capNat caps 2 →
      ProgressParser.extract_completion content =
        some ((capNat caps 1 : ℚ) / (capNat caps 2 : ℚ) * 100)) ∧
    (ProgressParser.tryNofM ProgressParser.completion_pat1 content = none →
      ∀ caps, rxSearch true ProgressParser.completion_pat2 content = some caps →
      0 < capNat caps 2 →
      ProgressParser.extract_completion content =
        some ((capNat caps 1 : ℚ) / (capNat caps 2 : ℚ) * 100)) ∧
    (ProgressParser.tryNofM ProgressParser.completion_pat1 content = none →
      ProgressParser.tryNofM ProgressParser.completion_pat2 content = none →
      ProgressParser.extract_completion content =
        ProgressParser.tryPct content) := by
  refine ⟨?_, ?_, ?_⟩
  · intro caps hs hm
    have h1 : ProgressParser.tryNofM ProgressParser.completion_pat1 content =
        some ((capNat caps 1 : ℚ) / (capNat caps 2 : ℚ) * 100) := by
      simp only [ProgressParser.tryNofM, hs, if_pos hm]
    simp only [ProgressParser.extract_completion, h1]
  · intro h1 caps hs hm
    have h2 : ProgressParser.tryNofM ProgressParser.completion_pat2 content =
        some ((capNat caps 1 : ℚ) / (capNat caps 2 : ℚ) * 100) := by
      simp only [ProgressParser.tryNofM, hs, if_pos hm]
    simp only [ProgressParser.extract_completion, h1, h2]
  · intro h1 h2
    simp only [ProgressParser.extract_completion, h1, h2]

/-- Witness for C2: in `"9%", then "1 of 2 done"` the bare percentage occurs
first in the document, yet the `N of M` family wins. -/
theorem completion_pattern_precedence_witness :
    ProgressParser.extract_completion "9%\n1 of 2 done" = some 50 ∧
    ProgressParser.tryPct "9%\n1 of 2 done" = some 9 := by
  have hs : rxSearch true ProgressParser.completion_pat1 "9%\n1 of 2 done" =
      some [(2, ['2']), (1, ['1'])] := by decide
  have hm : 0 < capNat [(2, ['2']), (1, ['1'])] 2 := by decide
  have h := (completion_pattern_precedence "9%\n1 of 2 done").1 _ hs hm
  have e1 : capNat [(2, ['2']), (1, ['1'])] 1 = 1 := by decide
  have e2 : capNat [(2, ['2']), (1, ['1'])] 2 = 2 := by decide
  rw [e1, e2] at h
  norm_num at h
  have hs3 : rxSearch true ProgressParser.completion_pat3 "9%\n1 of 2 done" =
      some [(1, ['9'])] := by decide
  refine ⟨h, ?_⟩
  have e4 : ratOfDecimal (capGet [(1, ['9'])] 1) =
      ((9 : ℕ) : ℚ) + ((0 : ℕ) : ℚ) / 10 ^ (0 : ℕ) := rfl
  simp only [ProgressParser.tryPct, hs3, Option.map_some']
  rw [e4]
  norm_num

/-- C3: merging completion percentages is monotone: the merged value equals
the running value unless the new value is set and strictly greater; a set
running value never decreases across a merge; and folding the merge over any
sequence of parsed states yields the pointwise maximum of all set values. -/
theorem merge_completion_monotone :
    (∀ base new : ProjectProgress,
      (ProgressParser.merge_progress base new).completion_pct =
        match new.completion_pct, base.completion_pct with
        | some nc, none => some nc
        | some nc, some bc => if bc < nc then some nc else some bc
        | none, b => b) ∧
    (∀ base new : ProjectProgress, ∀ q, base.completion_pct = some q →
      ∃ r, (ProgressParser.merge_progress base new).completion_pct = some r ∧
        q ≤ r) ∧
    (∀ (init : ProjectProgress) (l : List ProjectProgress),
      (ProgressParser.merge_all init l).completion_pct =
        (l.map ProjectProgress.completion_pct).foldl optMaxQ
          init.completion_pct) := by
  refine ⟨?_, ?_, ?_⟩
  · intro base new
    rw [merge_progress_completion]
    cases hn : new.completion_pct with
    | none => cases hb : base.completion_pct <;> simp [optMaxQ]
    | some nc =>
      cases hb : base.completion_pct with
      | none => simp [optMaxQ]
      | some bc =>
        by_cases hlt : bc < nc
        · simp [optMaxQ, hlt, max_eq_right (le_of_lt hlt)]
        · simp [optMaxQ, hlt, max_eq_left (not_lt.mp hlt)]
  · intro base new q hq
    rw [merge_progress_completion, hq]
    cases hn : new.completion_pct with
    | none => exact ⟨q, rfl, le_refl q⟩
    | some nc => exact ⟨max q nc, rfl, le_max_left q nc⟩
  · intro init l
    induction l generalizing init with
    | nil => rfl
    | cons p t ih =>
      show (ProgressParser.merge_all (ProgressParser.merge_progress init p) t).completion_pct = _
      rw [ih (ProgressParser.merge_progress init p), merge_progress_completion]
      rfl

/-- Witness for C3: merging completion 30 then completion 20 keeps 30. -/
theorem merge_completion_monotone_witness :
    (ProgressParser.merge_progress { completion_pct := some 30 }
      { completion_pct := some 20 }).completion_pct = some 30 ∧
    (ProgressParser.merge_all {} [{ completion_pct := some 30 },
      { completion_pct := some 20 }]).completion_pct = some 30 := by
  constructor
  · have h := merge_completion_monotone.1 { completion_pct := some 30 }
      { completion_pct := some 20 }
    rw [h]
    norm_num
  · have h := merge_completion_monotone.2.2 ({} : ProjectProgress)
      [{ completion_pct := some 30 }, { completion_pct := some 20 }]
    rw [h]
    show optMaxQ (optMaxQ (optMaxQ none (some 30)) (some 20)) Option.none = some 30
    simp [optMaxQ]
    norm_num

/-- C4: decision extraction yields a non-empty list iff at least two
`Option <letter>` headings match; it never yields more than one
DecisionPoint; the single synthesized DecisionPoint carries every matched
heading formatted `Option <L>: <text>` in document order; and exactly one
heading yields zero decisions. -/
theorem decision_extraction_threshold (content : String) (sf : Option String) :
    (ProgressParser.extract_decisions content sf ≠ [] ↔
      2 ≤ (rxFindIter true ProgressParser.option_pat content).length) ∧
    (ProgressParser.extract_decisions content sf).length ≤ 1 ∧
    (∀ d, d ∈ ProgressParser.extract_decisions content sf →
      d.options = (rxFindIter true ProgressParser.option_pat content).map
        ProgressParser.fmtOption ∧
      d.source_file = sf) ∧
    ((rxFindIter true ProgressParser.option_pat content).length = 1 →
      ProgressParser.extract_decisions content sf = []) := by
  by_cases h : 2 ≤ (rxFindIter true ProgressParser.option_pat content).length
  · refine ⟨⟨fun _ => h, fun _ => ?_⟩, ?_, ?_, ?_⟩
    · simp [ProgressParser.extract_decisions, h]
    · simp [ProgressParser.extract_decisions, h]
    · intro d hd
      simp only [ProgressParser.extract_decisions, if_pos h,
        List.mem_singleton] at hd
      subst hd
      exact ⟨rfl, rfl⟩
    · intro h1
      omega
  · refine ⟨⟨fun hne => ?_, fun hh => absurd hh h⟩, ?_, ?_, ?_⟩
    · exact absurd (by simp [ProgressParser.extract_decisions, h]) hne
    · simp [ProgressParser.extract_decisions, h]
    · intro d hd
      simp [ProgressParser.extract_decisions, h] at hd
    · intro _
      simp [ProgressParser.extract_decisions, h]

/-- Witness for C4: two headings give one decision with both options; a
single heading gives none. -/
theorem decision_extraction_threshold_witness :
    ProgressParser.extract_decisions "### Option A: X\n### Option B: Y\n"
      none ≠ [] ∧
    (ProgressParser.extract_decisions "### Option A: X\n### Option B: Y\n"
      none).length = 1 ∧
    (∀ d, d ∈ ProgressParser.extract_decisions
        "### Option A: X\n### Option B: Y\n" none →
      d.options = ["Option A: X", "Option B: Y"]) ∧
    ProgressParser.extract_decisions "### Option A: just one\n" none = [] := by
  have t1 := decision_extraction_threshold "### Option A: X\n### Option B: Y\n" none
  have t2 := decision_extraction_threshold "### Option A: just one\n" none
  have h1 : 2 ≤ (rxFindIter true ProgressParser.option_pat
      "### Option A: X\n### Option B: Y\n").length := by decide
  have h2 : (rxFindIter true ProgressParser.option_pat
      "### Option A: just one\n").length = 1 := by decide
  have hfmt : (rxFindIter true ProgressParser.option_pat
      "### Option A: X\n### Option B: Y\n").map ProgressParser.fmtOption =
      ["Option A: X", "Option B: Y"] := by decide
  refine ⟨t1.1.mpr h1, ?_, ?_, t2.2.2.2 h2⟩
  · have := t1.2.1
    have hne := t1.1.mpr h1
    interval_cases h : (ProgressParser.extract_decisions
      "### Option A: X\n### Option B: Y\n" none).length
    · exact absurd (List.length_eq_zero.mp h) hne
    · rfl
  · intro d hd
    rw [(t1.2.2.1 d hd).1, hfmt]

theorem pyJoin_mem_decomp2 (sep : String) (l : List String) (pre x : String)
    (h : (pre ++ x) ∈ l) : ∃ a b, pyJoin sep l = a ++ (x ++ b) := by
  obtain ⟨a, b, hab⟩ := pyJoin_mem_decomp sep l _ h
  rw [str_append_assoc pre x b] at hab
  rw [← str_append_assoc a pre (x ++ b)] at hab
  exact ⟨a ++ pre, b, hab⟩

/-- C5 counterexample: a `ProjectProgress` whose `has_pending_decision` flag
is set but whose `decisions` list is empty is NOT routed to decision mode:
the generator tests `progress.has_pending_decision and progress.decisions`,
so for every requested mode the produced prompt stays in that mode. -/
theorem decision_mode_flag_only_cex :
    ({ has_pending_decision := true } : ProjectProgress).has_pending_decision
      = true ∧
    (ContinuePromptGenerator.generate id "/p" "proj"
      { has_pending_decision := true } PromptMode.context).mode
      = PromptMode.context ∧
    (ContinuePromptGenerator.generate id "/p" "proj"
      { has_pending_decision := true } PromptMode.simple).mode
      = PromptMode.simple ∧
    (ContinuePromptGenerator.generate id "/p" "proj"
      { has_pending_decision := true } PromptMode.decision).mode
      ≠ PromptMode.decision := by
  refine ⟨rfl, rfl, rfl, ?_⟩
  decide

/-- C5 (amended): whenever `has_pending_decision` is true AND the decisions
list is non-empty, the generator returns the decision-mode prompt for the
first decision irrespective of the requested mode, surfacing the question,
every option in order, and the recommendation when present. -/
theorem decision_mode_auto_switch (ord : List String → List String)
    (path name : String) (progress : ProjectProgress) (mode : PromptMode)
    (h1 : progress.has_pending_decision = true)
    (h2 : progress.decisions ≠ []) :
    ∃ d rest, progress.decisions = d :: rest ∧
      ContinuePromptGenerator.generate ord path name progress mode =
        ContinuePromptGenerator.generate_decision_prompt path name progress d ∧
      (ContinuePromptGenerator.generate ord path name progress mode).mode =
        PromptMode.decision ∧
      (ContinuePromptGenerator.generate ord path name progress mode).has_decision
        = true ∧
      (ContinuePromptGenerator.generate ord path name progress mode).decision =
        some d ∧
      (∃ text, (ContinuePromptGenerator.generate ord path name progress
          mode).prompt_text = some text ∧
        (∃ a b, text = a ++ (d.question ++ b)) ∧
        (∀ opt ∈ d.options, ∃ a b, text = a ++ (opt ++ b)) ∧
        (∀ r, d.recommendation = some r → r ≠ "" →
          ∃ a b, text = a ++ (r ++ b))) := by
  obtain ⟨d, rest, hd⟩ := List.exists_cons_of_ne_nil h2
  have hg : ContinuePromptGenerator.generate ord path name progress mode =
      ContinuePromptGenerator.generate_decision_prompt path name progress d := by
    simp only [ContinuePromptGenerator.generate, h1, hd]
  refine ⟨d, rest, hd, hg, by rw [hg]; rfl, by rw [hg]; rfl, by rw [hg]; rfl, ?_⟩
  rw [hg]
  refine ⟨_, rfl, ?_, ?_, ?_⟩
  · apply pyJoin_mem_decomp2 "\n" _ "\n⚠️ DECISION REQUIRED: " d.question
    exact List.mem_append_left _ (List.mem_append_left _ (List.mem_append_left _
      (List.mem_append_left _ (List.mem_append_right _
        (List.mem_singleton.mpr rfl)))))
  · intro opt hopt
    apply pyJoin_mem_decomp2 "\n" _ "  - " opt
    exact List.mem_append_left _ (List.mem_append_left _ (List.mem_append_right _
      (List.mem_map_of_mem _ hopt)))
  · intro r hr hne
    apply pyJoin_mem_decomp2 "\n" _ "\n📌 Recommendation: " r
    have hR : (if pyTruthy d.recommendation then
        ["\n📌 Recommendation: " ++ d.recommendation.getD ""] else []) =
        ["\n📌 Recommendation: " ++ r] := by
      rw [hr]
      simp [pyTruthy, hne]
    rw [hR]
    exact List.mem_append_left _ (List.mem_append_right _
      (List.mem_singleton.mpr rfl))

/-- Witness for the amended C5: a progress with one pending decision is
routed to decision mode even when simple mode is requested. -/
theorem decision_mode_auto_switch_witness :
    (ContinuePromptGenerator.generate id "/p" "proj"
      { decisions := [{ question := "pick one",
                        options := ["Option A: X", "Option B: Y"],
                        recommendation := some "X" }],
        has_pending_decision := true } PromptMode.simple).mode =
      PromptMode.decision ∧
    (ContinuePromptGenerator.generate id "/p" "proj"
      { decisions := [{ question := "pick one",
                        options := ["Option A: X", "Option B: Y"],
                        recommendation := some "X" }],
        has_pending_decision := true } PromptMode.simple).has_decision =
      true := by
  obtain ⟨d, rest, hd, hg, hm, hh, -, -⟩ :=
    decision_mode_auto_switch id "/p" "proj"
      { decisions := [{ question := "pick one",
                        options := ["Option A: X", "Option B: Y"],
                        recommendation := some "X" }],
        has_pending_decision := true } PromptMode.simple rfl (by decide)
  exact ⟨hm, hh⟩

theorem min100_add (a b : ℤ) (ha : a ≤ 100) (hb : b ≤ 100) (hab : a = b + 10) :
    min a 100 = min b 100 + 10 := by
  rw [min_eq_left ha, min_eq_left hb, hab]

/-- C6: with completion_pct in [0,100], a clean git state is worth exactly 10
health points over a dirty one, all other attributes equal; likewise having
no pending decision is worth exactly 10 points over having one. -/
theorem health_clean_bonuses (p : Project)
    (hq : ∀ q, p.completion_pct = some q → 0 ≤ q ∧ q ≤ 100) :
    Project.health_score { p with git_dirty := false } =
      Project.health_score { p with git_dirty := true } + 10 ∧
    Project.health_score { p with has_pending_decision := false } =
      Project.health_score { p with has_pending_decision := true } + 10 := by
  obtain ⟨pc, hcm, htd, hpr, hda, hpd, hgd, hpt⟩ := p
  have hC30 : (match pc with
      | some q => pyInt (q * (3 / 10))
      | none => (0 : ℤ)) ≤ 30 := by
    cases pc with
    | none => norm_num
    | some q =>
      obtain ⟨h0, h100⟩ := hq q rfl
      show pyInt (q * (3 / 10)) ≤ 30
      unfold pyInt
      rw [if_pos (by positivity)]
      calc ⌊q * (3 / 10)⌋ ≤ ⌊(30 : ℚ)⌋ := Int.floor_le_floor (by linarith)
        _ = 30 := by norm_num
  clear hq
  have hR20 : (match hda with
      | some d => if d ≤ 7 then (20 : ℤ) else if d ≤ 14 then 15
          else if d ≤ 30 then 10 else if d ≤ 60 then 5 else 0
      | none => (0 : ℤ)) ≤ 20 := by
    cases hda with
    | none => norm_num
    | some d => dsimp only; split_ifs <;> norm_num
  have hT10 : (match hpt with
      | some t => if t ≠ "" ∧ t ≠ "generic" then (10 : ℤ) else 0
      | none => (0 : ℤ)) ≤ 10 := by
    cases hpt with
    | none => norm_num
    | some t => dsimp only; split_ifs <;> norm_num
  have hB1 : (if hcm then (10 : ℤ) else 0) ≤ 10 := by split_ifs <;> norm_num
  have hB2 : (if htd || hpr then (10 : ℤ) else 0) ≤ 10 := by split_ifs <;> norm_num
  have hD10 : (if ¬ hpd then (10 : ℤ) else 0) ≤ 10 := by split_ifs <;> norm_num
  have hG10 : (if ¬ hgd then (10 : ℤ) else 0) ≤ 10 := by split_ifs <;> norm_num
  have hg1 : (if ¬ (false = true) then (10 : ℤ) else 0) = 10 := by norm_num
  have hg0 : (if ¬ (true = true) then (10 : ℤ) else 0) = 0 := by norm_num
  have hg1T : (if ¬ False then (10 : ℤ) else 0) = 10 := by norm_num
  have hg0T : (if ¬ True then (10 : ℤ) else 0) = 0 := by norm_num
  constructor
  · simp only [Project.health_score, hg1, hg0, hg1T, hg0T]
    apply min100_add
    · linarith
    · linarith
    · ring
  · simp only [Project.health_score, hg1, hg0, hg1T, hg0T]
    apply min100_add
    · linarith
    · linarith
    · ring

/-- Witness for C6 at a concrete project record. -/
theorem health_clean_bonuses_witness :
    Project.health_score
      { ({ completion_pct := some 50, has_claude_md := true, has_todo := true,
           days_since_activity := some 3,
           project_type := some "node" } : Project) with git_dirty := false } =
    Project.health_score
      { ({ completion_pct := some 50, has_claude_md := true, has_todo := true,
           days_since_activity := some 3,
           project_type := some "node" } : Project) with git_dirty := true }
      + 10 ∧
    Project.health_score
      { ({ completion_pct := some 50, has_claude_md := true, has_todo := true,
           days_since_activity := some 3,
           project_type := some "node" } : Project) with
        has_pending_decision := false } =
    Project.health_score
      { ({ completion_pct := some 50, has_claude_md := true, has_todo := true,
           days_since_activity := some 3,
           project_type := some "node" } : Project) with
        has_pending_decision := true } + 10 :=
  health_clean_bonuses
    { completion_pct := some 50, has_claude_md := true, has_todo := true,
      days_since_activity := some 3, project_type := some "node" }
    (fun q h => by
      injection h with h
      subst h
      norm_num)

/-- C7 counterexample: the document `"500%"` yields a completion percentage
of 500, outside [0,100] — the parser does not clamp explicit percentages. -/
theorem completion_range_cex :
    ∃ q, (ProgressParser.parse_content "500%" none).completion_pct = some q ∧
      100 < q := by
  refine ⟨500, ?_, by norm_num⟩
  have hs3 : rxSearch true ProgressParser.completion_pat3 "500%" =
      some [(1, ['5', '0', '0'])] := by decide
  have h1 : ProgressParser.tryNofM ProgressParser.completion_pat1 "500%" =
      none := by decide
  have h2 : ProgressParser.tryNofM ProgressParser.completion_pat2 "500%" =
      none := by decide
  have e4 : ratOfDecimal (capGet [(1, ['5', '0', '0'])] 1) =
      ((500 : ℕ) : ℚ) + ((0 : ℕ) : ℚ) / 10 ^ (0 : ℕ) := rfl
  have hec : ProgressParser.extract_completion "500%" = some 500 := by
    simp only [ProgressParser.extract_completion, h1, h2, ProgressParser.tryPct,
      hs3, Option.map_some']
    rw [e4]
    norm_num
  simp only [ProgressParser.parse_content, hec]

/-- C7 (amended): the parsed completion percentage is never negative, and
when it comes from the checklist fallback (no explicit pattern matched) it
lies in [0,100]; explicit percentages and N-of-M ratios can exceed 100. -/
theorem completion_pct_nonneg_and_fallback_range (content : String)
    (sf : Option String) :
    (∀ q, (ProgressParser.parse_content content sf).completion_pct = some q →
      0 ≤ q) ∧
    (ProgressParser.extract_completion content = none →
      ∀ q, (ProgressParser.parse_content content sf).completion_pct = some q →
        0 ≤ q ∧ q ≤ 100) := by
  constructor
  · intro q hq
    cases hec : ProgressParser.extract_completion content with
    | some v =>
      simp only [ProgressParser.parse_content, hec] at hq
      injection hq with hq
      subst hq
      exact extract_completion_nonneg content v hec
    | none =>
      by_cases hne : ProgressParser.extract_checkboxes content sf ≠ []
      · obtain ⟨hc, -, -⟩ := parse_content_fallback content sf hec hne
        rw [hc] at hq
        injection hq with hq
        subst hq
        positivity
      · simp only [ProgressParser.parse_content, hec, if_neg hne] at hq
        cases hq
  · intro hec q hq
    by_cases hne : ProgressParser.extract_checkboxes content sf ≠ []
    · obtain ⟨hc, -, -⟩ := parse_content_fallback content sf hec hne
      rw [hc] at hq
      injection hq with hq
      subst hq
      have hlen : 0 < (ProgressParser.extract_checkboxes content sf).length :=
        List.length_pos.mpr hne
      have hsub : ((ProgressParser.extract_checkboxes content sf).filter
          (fun i => i.status = .complete)).length ≤
          (ProgressParser.extract_checkboxes content sf).length :=
        List.length_filter_le _ _
      constructor
      · positivity
      · rw [div_mul_eq_mul_div, div_le_iff₀ (by exact_mod_cast hlen)]
        have hsubQ : (((ProgressParser.extract_checkboxes content sf).filter
            (fun i => i.status = .complete)).length : ℚ) ≤
            ((ProgressParser.extract_checkboxes content sf).length : ℚ) := by
          exact_mod_cast hsub
        linarith
    · simp only [ProgressParser.parse_content, hec, if_neg hne] at hq
      cases hq

/-- Witness for the amended C7: a pure-checklist document with one of two
boxes checked gives completion 50, inside [0,100]. -/
theorem completion_pct_nonneg_and_fallback_range_witness :
    (ProgressParser.parse_content "- [x] A\n- [ ] B\n" none).completion_pct =
      some 50 ∧ (0 : ℚ) ≤ 50 ∧ (50 : ℚ) ≤ 100 := by
  have hec : ProgressParser.extract_completion "- [x] A\n- [ ] B\n" = none := by
    decide
  obtain ⟨hc, -, -⟩ := parse_content_fallback "- [x] A\n- [ ] B\n" none hec
    (by decide)
  have e1 : ((ProgressParser.extract_checkboxes "- [x] A\n- [ ] B\n"
      none).filter (fun i => i.status = .complete)).length = 1 := by decide
  have e2 : (ProgressParser.extract_checkboxes "- [x] A\n- [ ] B\n"
      none).length = 2 := by decide
  rw [e1, e2] at hc
  norm_num at hc
  exact ⟨hc, (completion_pct_nonneg_and_fallback_range "- [x] A\n- [ ] B\n"
    none).2 hec 50 hc⟩

/-- C8: ordering properties of the urgency score: every overdue project ranks
strictly above every project due soon, every project with an upcoming
deadline ranks strictly above every project with no deadline, and among
no-deadline projects a lower numeric priority value ranks strictly higher.
(The score lives in ℤ, a total order.) -/
theorem urgency_order_properties (dOver dSoon : ℤ) (pa pb pc pd pe : ℕ)
    (hov : dOver < 0) (hsoon : 0 ≤ dSoon) (hlt : pd < pe) :
    urgency_score (some dOver) pa > urgency_score (some dSoon) pb ∧
    urgency_score (some dSoon) pb > urgency_score none pc ∧
    urgency_score none pd > urgency_score none pe := by
  simp only [urgency_score]
  rw [if_pos hov, if_neg (not_lt.mpr hsoon)]
  refine ⟨?_, ?_, ?_⟩
  · have h1 : min dSoon 900 ≤ 900 := min_le_right _ _
    omega
  · have h2 : 0 ≤ min dSoon 900 := le_min hsoon (by norm_num)
    have h3 : min dSoon 900 ≤ 900 := min_le_right _ _
    have h4 : (0 : ℤ) ≤ (pc : ℤ) := Int.natCast_nonneg pc
    omega
  · have h5 : (pd : ℤ) < (pe : ℤ) := by exact_mod_cast hlt
    omega

/-- Witness for C8 at concrete inputs. -/
theorem urgency_order_properties_witness :
    urgency_score (some (-1)) 5 > urgency_score (some 0) 1 ∧
    urgency_score (some 0) 1 > urgency_score none 1 ∧
    urgency_score none 1 > urgency_score none 2 :=
  urgency_order_properties (-1) 0 5 1 1 1 2 (by norm_num) (by norm_num)
    (by norm_num)

/-- C10: whenever an explicit completion percentage is found (by any of the
three patterns), `parse_content` leaves `total_items` and `completed_items`
at zero, even when checklist items were extracted. -/
theorem explicit_pct_leaves_counts_zero (content : String) (sf : Option String)
    (h : ∃ v, ProgressParser.extract_completion content = some v) :
    (ProgressParser.parse_content content sf).total_items = 0 ∧
    (ProgressParser.parse_content content sf).completed_items = 0 := by
  obtain ⟨v, hv⟩ := h
  simp only [ProgressParser.parse_content, hv]
  refine ⟨?_, ?_⟩ <;> trivial

/-- Witness for C10: an explicit `75%` with one checked checkbox in the same
document: the item is extracted but both count fields stay zero. -/
theorem explicit_pct_leaves_counts_zero_witness :
    (ProgressParser.parse_content "75%\n- [x] A\n" none).total_items = 0 ∧
    (ProgressParser.parse_content "75%\n- [x] A\n" none).completed_items = 0 ∧
    (ProgressParser.parse_content "75%\n- [x] A\n" none).items.length = 1 := by
  have hex : ∃ v, ProgressParser.extract_completion "75%\n- [x] A\n" =
      some v := by
    have hs3 : rxSearch true ProgressParser.completion_pat3 "75%\n- [x] A\n" =
        some [(1, ['7', '5'])] := by decide
    have h1 : ProgressParser.tryNofM ProgressParser.completion_pat1
        "75%\n- [x] A\n" = none := by decide
    have h2 : ProgressParser.tryNofM ProgressParser.completion_pat2
        "75%\n- [x] A\n" = none := by decide
    refine ⟨ratOfDecimal (capGet [(1, ['7', '5'])] 1), ?_⟩
    simp only [ProgressParser.extract_completion, h1, h2, ProgressParser.tryPct,
      hs3, Option.map_some']
  obtain ⟨ht, hc⟩ := explicit_pct_leaves_counts_zero "75%\n- [x] A\n" none hex
  exact ⟨ht, hc, by decide⟩

/-- C9: the "Relevant files" line of the context prompt joins the ELEMENTS of
a Python set of file names.  CPython iterates that set in a hash-dependent
order (string hashing is randomized per process), so two enumeration orders
of the SAME set — here the insertion order and its reverse, a permutation of
it — produce different prompt bytes for equal `ProjectProgress` inputs: the
output is not a function of the input text alone, violating the byte-identical
re-run requirement. -/
theorem relevant_files_order_dependent :
    (ProgressParser.parse_content "- [ ] A\n" (some "TODO.md")).items.map
      ProgressItem.source_file = [some "TODO.md"] ∧
    ContinuePromptGenerator.sourceFileSet
      [{ content := "A", status := .pending, source_file := some "TODO.md",
         line_number := some 1 },
       { content := "B", status := .pending, source_file := some "PROGRESS.md",
         line_number := some 1 }] = ["TODO.md", "PROGRESS.md"] ∧
    (List.reverse ["TODO.md", "PROGRESS.md"]).Perm ["TODO.md", "PROGRESS.md"] ∧
    (ContinuePromptGenerator.generate id "/p" "proj"
      { items := [{ content := "A", status := .pending,
                    source_file := some "TODO.md", line_number := some 1 },
                  { content := "B", status := .pending,
                    source_file := some "PROGRESS.md",
                    line_number := some 1 }] }
      PromptMode.context).prompt_text ≠
    (ContinuePromptGenerator.generate List.reverse "/p" "proj"
      { items := [{ content := "A", status := .pending,
                    source_file := some "TODO.md", line_number := some 1 },
                  { content := "B", status := .pending,
                    source_file := some "PROGRESS.md",
                    line_number := some 1 }] }
      PromptMode.context).prompt_text := by
  refine ⟨?_, by decide, by decide, by decide⟩
  decide
